import Mathlib

/-!
# Verification of the IllegalMap WitherDoorEsp module

A shallow embedding of `src/IllegalMap/extra/WitherDoorEsp.js`:

* the block-clearance prober `calculateFootCoordsWithBlockCheck`,
* the recursive door search `searchForWitherDoors`,
* the per-tick state-change publisher (the `register("tick")` callback) and
  the `gotodoor` command callback.

Host collaborators (the world block lookup, the player position, the room
graph accessor `DmapDungeon.getDoorBetweenRooms`) are modelled as explicit
inputs, bundled in an `Env` structure.  Fallible host calls return `Option`
(`none` models the call throwing).  Emitted WebSocket messages and chat/log
output are returned as explicit lists, so the tick callback becomes a pure
state-transition function `TickState → TickState × List Msg`.
-/

namespace WitherDoorEsp

/-- `const AirBlockID = 0` — the Minecraft air block id. -/
def AirBlockID : Int := 0

/-- `const FLOOR_Y = 69` — the fixed dungeon floor elevation. -/
def FLOOR_Y : Int := 69

/-- The world block lookup, `World.getBlockAt(x, y, z).type.getID()`.
`none` models the lookup throwing an exception (the `catch` branch of
`isBlockAir`); `some id` is a successful lookup of the block id. -/
structure World where
  blockId : Int → Int → Int → Option Int

/-- Chat/console output produced by the module, represented structurally. -/
inductive LogMsg where
  /-- `ChatLib.chat` error from `isBlockAir`'s `catch` branch, naming the
  probed coordinates. -/
  | blockCheckError (x y z : Int)
  /-- `console.warn` from `searchForWitherDoors` when the prober returned
  `null`: names the two rooms the door connects and the door's center. -/
  | footCoordsFallback (roomName childName : String) (doorX doorZ : Int)
  deriving DecidableEq, Repr

/-- Modelled from the spec: the `DoorTypes` enumeration is imported from
`../utils/utils`, which is not among the sources.  Spec §3: a type tag drawn
from a small fixed enumeration that includes at least WITHER and BLOOD plus
other unused types; spec §6: emitted messages carry a human-readable type
label string. -/
inductive DoorType where
  | NORMAL
  | WITHER
  | BLOOD
  | ENTRANCE
  deriving DecidableEq, Repr

/-- Modelled from the spec: the human-readable label of a door type used in
the `doorLocations` payload (`DoorTypes[door.type] || door.type`). -/
def DoorType.label : DoorType → String
  | .NORMAL => "NORMAL"
  | .WITHER => "WITHER"
  | .BLOOD => "BLOOD"
  | .ENTRANCE => "ENTRANCE"

/-- `const TypesToESP = [DoorTypes.WITHER, DoorTypes.BLOOD]`. -/
def TypesToESP : List DoorType := [.WITHER, .BLOOD]

/-- A door as obtained from the room-graph accessor: planar center position,
type tag and opened flag (spec §3 pins the positions to integer values). -/
structure Door where
  x : Int
  z : Int
  type : DoorType
  opened : Bool
  deriving DecidableEq, Repr

/-- A door after the traversal augmented it with standing coordinates
(`door.footX = ...` etc.).  The fields are optional because a raw door
object carries no `footX`/`footY`/`footZ`; the publisher's filter tests
`footX !== undefined && footZ !== undefined`. -/
structure AugDoor extends Door where
  footX : Option Int
  footY : Option Int
  footZ : Option Int
  deriving DecidableEq, Repr

/-- A room of the dungeon graph: `{ name: string, children: Room[] }`.
Rooms are identified by numeric ids; `children` lists the ids of the
adjacent child rooms. -/
structure Room where
  name : String
  children : List Nat
  deriving DecidableEq, Repr

/-- The host environment an invocation runs against: the world block lookup,
the player's (floating-point, hence `Rat`) position, and the room graph
accessor.  `getRoom` returning `none` models an invalid/absent room object
(the `!room || !room.children` and `!child || !child.name` guards);
`getDoorBetweenRooms` returning `none` models `DmapDungeon.getDoorBetweenRooms`
yielding no door. -/
structure Env where
  world : World
  playerX : Rat
  playerY : Rat
  playerZ : Rat
  getRoom : Nat → Option Room
  getDoorBetweenRooms : Nat → Nat → Option Door

/-!
## The block-clearance prober (`calculateFootCoordsWithBlockCheck`)
-/

/-- `isBlockAir(x, y, z)`: `true` iff the lookup succeeds and returns the
air block id; a throwing lookup (`none`) is conservatively `false`
("Assume solid if error"). -/
def isBlockAir (w : World) (x y z : Int) : Bool :=
  match w.blockId x y z with
  | some t => t == AirBlockID
  | none => false

/-- The chat output of one `isBlockAir` call: the `catch` branch logs a
non-fatal error naming the probed coordinates. -/
def isBlockAirLog (w : World) (x y z : Int) : List LogMsg :=
  match w.blockId x y z with
  | some _ => []
  | none => [.blockCheckError x y z]

/-- One direction's clearance check
`isBlockAir(x, floorY, z) && isBlockAir(x, floorY + 1, z)` together with the
chat output it produces.  JavaScript `&&` short-circuits, so the head-height
cell is only probed (and can only log) when the floor cell came back air. -/
def probePair (w : World) (x floorY z : Int) : Bool × List LogMsg :=
  if isBlockAir w x floorY z then
    (isBlockAir w x (floorY + 1) z, isBlockAirLog w x floorY z ++ isBlockAirLog w x (floorY + 1) z)
  else
    (false, isBlockAirLog w x floorY z)

/-- A candidate standing position, `{ footX, footY, footZ, side }`. -/
structure Candidate where
  footX : Int
  footY : Int
  footZ : Int
  side : String
  deriving DecidableEq, Repr

/-- The four adjacent clearance checks (the `checks` object), two cells out
from the integer door center, in source order north, south, east, west.
Returned as `(north, south, east, west)`. -/
def doorChecks (w : World) (doorBlockX doorBlockZ floorY : Int) :
    Bool × Bool × Bool × Bool :=
  ((probePair w doorBlockX floorY (doorBlockZ - 2)).1,
   (probePair w doorBlockX floorY (doorBlockZ + 2)).1,
   (probePair w (doorBlockX + 2) floorY doorBlockZ).1,
   (probePair w (doorBlockX - 2) floorY doorBlockZ).1)

/-- The chat output produced while evaluating the four clearance checks, in
evaluation order north, south, east, west. -/
def doorChecksLog (w : World) (doorBlockX doorBlockZ floorY : Int) : List LogMsg :=
  (probePair w doorBlockX floorY (doorBlockZ - 2)).2 ++
  (probePair w doorBlockX floorY (doorBlockZ + 2)).2 ++
  (probePair w (doorBlockX + 2) floorY doorBlockZ).2 ++
  (probePair w (doorBlockX - 2) floorY doorBlockZ).2

/-- The candidate list built from the four checks (source lines 91–94), in
the fixed push order north, south, east, west.  Note the exact offsets of
the source: the along-axis offset is 3, the cross-axis offset is `+2` for
north, `-2` for south, `-2` (in z) for east and west. -/
def footCandidates (w : World) (doorBlockX doorBlockZ floorY : Int) : List Candidate :=
  let checks := doorChecks w doorBlockX doorBlockZ floorY
  (if checks.1 then [⟨doorBlockX + 2, floorY, doorBlockZ - 3, "north"⟩] else []) ++
  (if checks.2.1 then [⟨doorBlockX - 2, floorY, doorBlockZ + 3, "south"⟩] else []) ++
  (if checks.2.2.1 then [⟨doorBlockX + 3, floorY, doorBlockZ - 2, "east"⟩] else []) ++
  (if checks.2.2.2 then [⟨doorBlockX - 3, floorY, doorBlockZ - 2, "west"⟩] else [])

/-- The squared planar distance `dx*dx + dz*dz` between the (floored)
observer position and a candidate's standing cell. -/
def distSq (pp : Int × Int × Int) (c : Candidate) : Int :=
  let dx := pp.1 - c.footX
  let dz := pp.2.2 - c.footZ
  dx * dx + dz * dz

/-- The `candidates.forEach` selection loop: the accumulator is
`(bestPosition, closestDistanceSq)`, with `none` standing for
`(null, Infinity)`; a candidate replaces the accumulator exactly when its
squared distance is strictly smaller. -/
def pickClosest (pp : Int × Int × Int) :
    List Candidate → Option (Candidate × Int) → Option (Candidate × Int)
  | [], acc => acc
  | c :: rest, acc =>
    let d := distSq pp c
    match acc with
    | none => pickClosest pp rest (some (c, d))
    | some (b, bd) =>
      if d < bd then pickClosest pp rest (some (c, d))
      else pickClosest pp rest (some (b, bd))

/-- The observer position used for tie-breaking: the supplied position when
given, otherwise the player's current position, each component floored to an
integer (`Math.floor`). -/
def observerPos (env : Env) : Option (Rat × Rat × Rat) → Int × Int × Int
  | none => (Rat.floor env.playerX, Rat.floor env.playerY, Rat.floor env.playerZ)
  | some (px, py, pz) => (Rat.floor px, Rat.floor py, Rat.floor pz)

/-- The prober after its integer conversions: `doorBlockX`/`doorBlockZ` are
the floored door center, `pp` the floored observer position.  Selection:
zero candidates → `none` (the source returns `null`), one candidate → it,
several → the `forEach` proximity loop. -/
def calculateFootCoordsCore (w : World) (doorBlockX doorBlockZ floorY : Int)
    (pp : Int × Int × Int) : Option Candidate × List LogMsg :=
  let logs := doorChecksLog w doorBlockX doorBlockZ floorY
  match footCandidates w doorBlockX doorBlockZ floorY with
  | [] => (none, logs)
  | [c] => (some c, logs)
  | cs => ((pickClosest pp cs none).map Prod.fst, logs)

/-- `calculateFootCoordsWithBlockCheck(doorCoords, floorY, playerPos)`.
Returns the chosen standing candidate (`none` models returning `null`)
together with the chat output produced by the block probes.  The door center
components and the observer position are floored to the block grid
(`Math.floor`). -/
def calculateFootCoordsWithBlockCheck (env : Env) (doorCoords : Rat × Rat)
    (floorY : Int) (playerPos : Option (Rat × Rat × Rat)) :
    Option Candidate × List LogMsg :=
  calculateFootCoordsCore env.world (Rat.floor doorCoords.1) (Rat.floor doorCoords.2)
    floorY (observerPos env playerPos)

/-!
## The recursive door search (`searchForWitherDoors`)

The source recursion terminates because a call with `doorsFound >= 2`
returns immediately and every recursive call increments `doorsFound`; we
encode it structurally on the remaining budget `2 - doorsFound`.
`searchForWitherDoors_eq` below recovers the source's recursion equation in
terms of `doorsFound` itself.
-/

/-- `TypesToESP.includes(door.type) && !door.opened` — whether a fetched door
passes the `if (!door || !TypesToESP.includes(door.type) || door.opened)
continue` filter. -/
def doorQualifies (door : Door) : Bool :=
  TypesToESP.contains door.type && !door.opened

/-- The guards the loop body applies to a child before processing its door:
`none` when the child room is invalid (`!child || !child.name`), when the
accessor returns no door, or when the door fails the type/opened filter;
otherwise the child room together with its qualifying connecting door. -/
def qualifyingDoor (env : Env) (roomId childId : Nat) : Option (Room × Door) :=
  match env.getRoom childId with
  | none => none
  | some child =>
    if child.name = "" then none
    else
      match env.getDoorBetweenRooms roomId childId with
      | none => none
      | some door => if doorQualifies door then some (child, door) else none

/-- Augment a door with standing coordinates: the prober's candidate when it
found one, otherwise the fallback `footX = door.x`, `footY = FLOOR_Y`,
`footZ = door.z`.  The prober is invoked exactly as in the source: with the
door's center, `FLOOR_Y`, and no explicit player position. -/
def augmentDoor (env : Env) (door : Door) : AugDoor :=
  match (calculateFootCoordsWithBlockCheck env ((door.x : Rat), (door.z : Rat)) FLOOR_Y none).1 with
  | some f => ⟨door, some f.footX, some f.footY, some f.footZ⟩
  | none => ⟨door, some door.x, some FLOOR_Y, some door.z⟩

/-- One iteration of the `for (let child of room.children)` loop: the doors
pushed, the chat/warn output produced, and the boolean returned by the
recursive call.  `sub` is the recursive search at the incremented
found-count (`searchForWitherDoors(child, newDoorsFound)`), applied to the
child id.  The door is pushed before the recursive call, so the pushed door
precedes its subtree's doors. -/
def childStep (env : Env) (sub : Nat → List AugDoor × List LogMsg × Bool)
    (roomId : Nat) (room : Room) (childId : Nat) :
    List AugDoor × List LogMsg × Bool :=
  match qualifyingDoor env roomId childId with
  | none => ([], [], false)
  | some (child, door) =>
    let probe := calculateFootCoordsWithBlockCheck env ((door.x : Rat), (door.z : Rat)) FLOOR_Y none
    let warn : List LogMsg :=
      match probe.1 with
      | some _ => []
      | none => [.footCoordsFallback room.name child.name door.x door.z]
    let subRes := sub childId
    ([augmentDoor env door] ++ subRes.1, probe.2 ++ warn ++ subRes.2.1, subRes.2.2)

/-- The search, structurally recursive on the remaining budget
`rem = 2 - doorsFound`: budget `0` is the `if (doorsFound >= 2) return true`
early exit, an invalid room returns `false` with no doors, and otherwise the
loop runs over `room.children`, OR-ing the recursive termination flags into
`pathShouldTerminate`. -/
def searchR (env : Env) : Nat → Nat → List AugDoor × List LogMsg × Bool
  | 0, _ => ([], [], true)
  | rem + 1, roomId =>
    match env.getRoom roomId with
    | none => ([], [], false)
    | some room =>
      room.children.foldl
        (fun acc childId =>
          (acc.1 ++ (childStep env (searchR env rem) roomId room childId).1,
           acc.2.1 ++ (childStep env (searchR env rem) roomId room childId).2.1,
           acc.2.2 || (childStep env (searchR env rem) roomId room childId).2.2))
        ([], [], false)

/-- `searchForWitherDoors(room, doorsFound)`: returns the list of doors
pushed onto `doorsToRender` (in push order), the chat/warn output, and the
returned boolean. -/
def searchForWitherDoors (env : Env) (roomId : Nat) (doorsFound : Nat) :
    List AugDoor × List LogMsg × Bool :=
  searchR env (2 - doorsFound) roomId

/-- The doors appended along one root-to-leaf path through one child: none
when the child is skipped, otherwise one (the child's door) plus the doors
of the deepest path below the child.  `sub` is the per-path count of the
recursive call. -/
def pathStep (env : Env) (sub : Nat → Nat) (roomId childId : Nat) : Nat :=
  match qualifyingDoor env roomId childId with
  | none => 0
  | some _ => 1 + sub childId

/-- The greatest number of doors the search appends along any single
root-to-leaf path of its recursion, mirroring `searchR`: the budget-0 early
exit and the invalid-room branch append nothing on any path, and otherwise
each child starts its own path. -/
def maxPathR (env : Env) : Nat → Nat → Nat
  | 0, _ => 0
  | rem + 1, roomId =>
    match env.getRoom roomId with
    | none => 0
    | some room =>
      room.children.foldl (fun m c => max m (pathStep env (maxPathR env rem) roomId c)) 0

/-- `maxPathR` in terms of the source's `doorsFound` parameter. -/
def maxPathDoors (env : Env) (roomId doorsFound : Nat) : Nat :=
  maxPathR env (2 - doorsFound) roomId

/-- The doors fetched through one child during the walk: none when the child
room is invalid or the accessor has no door for the pair; otherwise the
fetched door, followed by the doors fetched below the child when the door
qualifies (the source recurses only into children whose door qualified). -/
def fetchStep (env : Env) (sub : Nat → List Door) (roomId childId : Nat) : List Door :=
  match env.getRoom childId with
  | none => []
  | some child =>
    if child.name = "" then []
    else
      match env.getDoorBetweenRooms roomId childId with
      | none => []
      | some door => door :: (if doorQualifies door then sub childId else [])

/-- All doors the walk fetches from the room-graph accessor, in
encounter (depth-first, children-array) order, mirroring `searchR`'s
control flow. -/
def fetchedR (env : Env) : Nat → Nat → List Door
  | 0, _ => []
  | rem + 1, roomId =>
    match env.getRoom roomId with
    | none => []
    | some room =>
      room.children.foldl (fun acc c => acc ++ fetchStep env (fetchedR env rem) roomId c) []

/-- `fetchedR` in terms of the source's `doorsFound` parameter. -/
def fetchedDoors (env : Env) (roomId doorsFound : Nat) : List Door :=
  fetchedR env (2 - doorsFound) roomId

/-!
## The tick-driven state change publisher
-/

/-- One entry of the `doorLocations` payload:
`{ x, z, type: DoorTypes[door.type] || door.type, opened, footX, footY, footZ }`.
The foot fields are optional: the publisher filters on
`footX !== undefined && footZ !== undefined`. -/
structure DoorData where
  x : Int
  z : Int
  typeLabel : String
  opened : Bool
  footX : Option Int
  footY : Option Int
  footZ : Option Int
  deriving DecidableEq, Repr

/-- The payload entry built from an augmented door. -/
def toDoorData (a : AugDoor) : DoorData :=
  ⟨a.x, a.z, a.type.label, a.opened, a.footX, a.footY, a.footZ⟩

/-- An outbound WebSocket message.  `JSON.stringify` is deterministic and
injective on these payloads, so we compare messages structurally where the
source compares serialized strings. -/
inductive Msg where
  /-- `{ type: "doorLocations", doors: [...] }` -/
  | doorLocations (doors : List DoorData)
  /-- `{ type: "action", action: "GOTO", sender: "ChatTriggers", data: {x, y, z} }` -/
  | goto (x y z : Option Int)
  deriving DecidableEq, Repr

/-- Whether a message is a `doorLocations` message. -/
def Msg.isDoorLocations : Msg → Bool
  | .doorLocations _ => true
  | _ => false

/-- Whether a message is a `GOTO` action message. -/
def Msg.isGoto : Msg → Bool
  | .goto _ _ _ => true
  | _ => false

/-- The module-level mutable state read and written by the tick and command
callbacks. -/
structure TickState where
  doorsToRender : List AugDoor
  lastSentDoorsJson : Option (List DoorData)
  isAutoGotoEnabled : Bool
  lastSentGotoCoords : Option (Option Int × Option Int × Option Int)
  deriving DecidableEq, Repr

/-- The host-supplied context of one tick: feature toggle, dungeon state,
current room, and the environment the search runs against. -/
structure TickCtx where
  witherDoorEsp : Bool
  inDungeon : Bool
  bossEntry : Bool
  currentRoom : Option Nat
  env : Env

/-- The filtered `doorsData` payload a tick computes for a room: the
collected doors mapped to payload entries, filtered to those with defined
`footX` and `footZ`. -/
def computeDoorsData (env : Env) (roomId : Nat) : List DoorData :=
  ((searchForWitherDoors env roomId 0).1.map toDoorData).filter
    (fun d => d.footX.isSome && d.footZ.isSome)

/-- The `doorLocations` change-detection block: emit the payload when it is
nonempty and differs from the snapshot; when it is empty, emit an explicit
empty-list payload only if the snapshot is non-null and not already the
empty payload.  Returns the emissions and the new snapshot. -/
def doorLocationsStep (last : Option (List DoorData)) (doorsData : List DoorData) :
    List Msg × Option (List DoorData) :=
  if 0 < doorsData.length then
    if some doorsData = last then ([], last)
    else ([Msg.doorLocations doorsData], some doorsData)
  else
    match last with
    | none => ([], none)
    | some prev => if prev = [] then ([], last) else ([Msg.doorLocations []], some [])

/-- The auto-GOTO block: when enabled and a target exists, emit a `GOTO`
exactly when its standing coordinates differ from the last-sent navigate
coordinates (updating them on emission); when enabled with no target, clear
the last-sent coordinates without emitting; when disabled, leave them
unchanged. -/
def gotoStep (enabled : Bool) (last : Option (Option Int × Option Int × Option Int))
    (target : Option DoorData) :
    List Msg × Option (Option Int × Option Int × Option Int) :=
  if enabled then
    match target with
    | some t =>
      let nc := (t.footX, t.footY, t.footZ)
      if last ≠ some nc then ([Msg.goto t.footX t.footY t.footZ], some nc)
      else ([], last)
    | none => ([], none)
  else ([], last)

/-- The `register("tick")` callback as a state transition returning the
messages passed to `sendWebSocketMessage`, in send order.  The inactive and
no-current-room branches clear the door list, snapshot and navigate state
(the source's `if (doorsToRender.length > 0 || lastSentDoorsJson !== null)`
guard skips the assignments only when they are already clear, so the result
is the same). -/
def tick (ctx : TickCtx) (s : TickState) : TickState × List Msg :=
  let shouldBeActive := ctx.witherDoorEsp && ctx.inDungeon && !ctx.bossEntry
  if !shouldBeActive then
    ({ doorsToRender := [], lastSentDoorsJson := none,
       isAutoGotoEnabled := s.isAutoGotoEnabled, lastSentGotoCoords := none }, [])
  else
    match ctx.currentRoom with
    | none =>
      ({ doorsToRender := [], lastSentDoorsJson := none,
         isAutoGotoEnabled := s.isAutoGotoEnabled, lastSentGotoCoords := none }, [])
    | some roomId =>
      let found := (searchForWitherDoors ctx.env roomId 0).1
      let doorsData := computeDoorsData ctx.env roomId
      let step1 := doorLocationsStep s.lastSentDoorsJson doorsData
      let step2 := gotoStep s.isAutoGotoEnabled s.lastSentGotoCoords doorsData.head?
      ({ doorsToRender := found, lastSentDoorsJson := step1.2,
         isAutoGotoEnabled := s.isAutoGotoEnabled, lastSentGotoCoords := step2.2 },
       step1.1 ++ step2.1)

/-- The `gotodoor` command callback: toggles `isAutoGotoEnabled` and resets
`lastSentGotoCoords` in both the enabling and the disabling branch. -/
def gotodoorCommand (s : TickState) : TickState :=
  { s with isAutoGotoEnabled := !s.isAutoGotoEnabled, lastSentGotoCoords := none }

/-- The module's initial state: empty door list, no snapshot, auto-goto
disabled, no last-sent navigate coordinates. -/
def initialState : TickState := ⟨[], none, false, none⟩

/-- An environment whose player position is given on the block grid, for
concrete instantiations. -/
def mkEnv (w : World) (px py pz : Int) (rooms : Nat → Option Room)
    (doors : Nat → Nat → Option Door) : Env :=
  ⟨w, (px : Rat), (py : Rat), (pz : Rat), rooms, doors⟩

/-- A world that is air exactly at the north clearance column of a door
centered at the origin — `(0, 69, -2)` and `(0, 70, -2)` — and solid stone
everywhere else. -/
def worldNorthOnly : World :=
  ⟨fun x y z => if x == 0 && (y == 69 || y == 70) && z == -2 then some AirBlockID else some 1⟩

/-- A world that is all air: every clearance check succeeds. -/
def worldAllAir : World := ⟨fun _ _ _ => some AirBlockID⟩

/-- `worldNorthOnly` with the player at grid position `(0, 70, 0)` and an
empty room graph. -/
def envNorthOnly : Env :=
  mkEnv worldNorthOnly 0 70 0 (fun _ => none) (fun _ _ => none)

/-- A world of solid stone everywhere: no clearance check ever succeeds. -/
def worldAllStone : World := ⟨fun _ _ _ => some 1⟩

/-- A world whose lookup throws exactly at `(0, 69, -2)` and is air
everywhere else. -/
def worldFailNorth : World :=
  ⟨fun x y z => if x == 0 && y == 69 && z == -2 then none else some AirBlockID⟩

/-- A two-room graph: room 0 ("Start") has the single child 1 ("Next"),
connected by an unopened WITHER door at `(10, 20)`. -/
def roomsLine : Nat → Option Room := fun r =>
  if r == 0 then some ⟨"Start", [1]⟩
  else if r == 1 then some ⟨"Next", []⟩
  else none

/-- The doors of `roomsLine`. -/
def doorsLine : Nat → Nat → Option Door := fun a b =>
  if a == 0 && b == 1 then some ⟨10, 20, .WITHER, false⟩ else none

/-- `roomsLine`/`doorsLine` in a world of solid stone: the prober fails on
the door, forcing the traversal's fallback. -/
def envLineStone : Env := mkEnv worldAllStone 0 70 0 roomsLine doorsLine

/-- A root room 0 with three leaf children 1, 2, 3, each connected by its
own unopened WITHER door. -/
def roomsSiblings : Nat → Option Room := fun r =>
  if r == 0 then some ⟨"A", [1, 2, 3]⟩
  else if r == 1 then some ⟨"B", []⟩
  else if r == 2 then some ⟨"C", []⟩
  else if r == 3 then some ⟨"D", []⟩
  else none

/-- The doors of `roomsSiblings`. -/
def doorsSiblings : Nat → Nat → Option Door := fun a b =>
  if a == 0 && b == 1 then some ⟨8, 0, .WITHER, false⟩
  else if a == 0 && b == 2 then some ⟨16, 0, .WITHER, false⟩
  else if a == 0 && b == 3 then some ⟨24, 0, .WITHER, false⟩
  else none

/-- Three sibling qualifying doors under one root, in open air. -/
def envSiblings : Env := mkEnv worldAllAir 0 70 0 roomsSiblings doorsSiblings

/-- A diamond graph: room 0 has children 1 and 2, and both 1 and 2 have the
child 3.  The two edges into room 3 carry the same door value (the one
shared BLOOD door), so the search reaches that door along two paths. -/
def roomsDiamond : Nat → Option Room := fun r =>
  if r == 0 then some ⟨"A", [1, 2]⟩
  else if r == 1 then some ⟨"B", [3]⟩
  else if r == 2 then some ⟨"C", [3]⟩
  else if r == 3 then some ⟨"D", []⟩
  else none

/-- The doors of `roomsDiamond`; the `(1,3)` and `(2,3)` edges return the
same door. -/
def doorsDiamond : Nat → Nat → Option Door := fun a b =>
  if a == 0 && b == 1 then some ⟨8, 0, .WITHER, false⟩
  else if a == 0 && b == 2 then some ⟨16, 0, .WITHER, false⟩
  else if (a == 1 || a == 2) && b == 3 then some ⟨24, 0, .BLOOD, false⟩
  else none

/-- The diamond graph in open air. -/
def envDiamond : Env := mkEnv worldAllAir 0 70 0 roomsDiamond doorsDiamond

/-- A single room with no children: the search finds nothing. -/
def roomsLone : Nat → Option Room := fun r =>
  if r == 0 then some ⟨"A", []⟩ else none

/-- `roomsLone` with no doors at all. -/
def envLone : Env := mkEnv worldAllAir 0 70 0 roomsLone (fun _ _ => none)

/-- An active tick context (feature on, in dungeon, not in boss) over the
diamond graph with current room 0. -/
def ctxDiamond : TickCtx := ⟨true, true, false, some 0, envDiamond⟩

/-- An active tick context over the lone childless room: the filtered door
sequence is empty. -/
def ctxLone : TickCtx := ⟨true, true, false, some 0, envLone⟩

/-- A tick context with the feature toggle off. -/
def ctxDisabled : TickCtx := ⟨false, true, false, some 0, envDiamond⟩

/-- A sample emitted payload entry (the augmented WITHER door at `(8, 0)`),
used to seed non-empty snapshots in concrete runs. -/
def sampleDoorData : DoorData := ⟨8, 0, "WITHER", false, some 5, some 69, some (-2)⟩

/-!
## General lemmas
-/

/-- Flooring an integer-valued rational is the identity. -/
theorem ratFloor_intCast (n : Int) : Rat.floor ((n : Int) : Rat) = n := by
  rw [Rat.floor_def']
  simp

/-- The prober on an integer-valued door center reduces to its core on the
center itself. -/
theorem calculateFootCoords_intCast (env : Env) (a b floorY : Int)
    (pp : Option (Rat × Rat × Rat)) :
    calculateFootCoordsWithBlockCheck env ((a : Rat), (b : Rat)) floorY pp =
      calculateFootCoordsCore env.world a b floorY (observerPos env pp) := by
  simp [calculateFootCoordsWithBlockCheck, ratFloor_intCast]

/-- On an environment built with `mkEnv`, the unsupplied observer position is
the player's grid position. -/
theorem observerPos_mkEnv (w : World) (px py pz : Int) (rooms : Nat → Option Room)
    (doors : Nat → Nat → Option Door) :
    observerPos (mkEnv w px py pz rooms doors) none = (px, py, pz) := by
  simp [observerPos, mkEnv, ratFloor_intCast]

/-- A fold that appends componentwise into a triple accumulator computes the
concatenations (and disjunction) of the per-element contributions. -/
theorem foldl_acc_triple {α β γ : Type} (f : γ → List α × List β × Bool) (l : List γ)
    (d : List α) (w : List β) (b : Bool) :
    l.foldl
        (fun acc x => (acc.1 ++ (f x).1, acc.2.1 ++ (f x).2.1, acc.2.2 || (f x).2.2))
        (d, w, b) =
      (d ++ l.flatMap (fun x => (f x).1), w ++ l.flatMap (fun x => (f x).2.1),
       b || l.any (fun x => (f x).2.2)) := by
  induction l generalizing d w b with
  | nil => simp
  | cons x xs ih => simp [ih, Bool.or_assoc]

/-- A fold that appends into a list accumulator computes the concatenation
of the per-element contributions. -/
theorem foldl_acc_append {α γ : Type} (f : γ → List α) (l : List γ) (d : List α) :
    l.foldl (fun acc x => acc ++ f x) d = d ++ l.flatMap f := by
  induction l generalizing d with
  | nil => simp
  | cons x xs ih => simp [ih]

/-- A fold by `max` stays below a bound dominating the seed and every
element's contribution. -/
theorem foldl_max_le {γ : Type} (f : γ → Nat) (l : List γ) (k : Nat) :
    ∀ m, m ≤ k → (∀ c ∈ l, f c ≤ k) →
      l.foldl (fun acc c => max acc (f c)) m ≤ k := by
  induction l with
  | nil => intro m hm _; simpa using hm
  | cons x xs ih =>
    intro m hm hf
    exact ih (max m (f x)) (max_le hm (hf x (by simp)))
      (fun c hc => hf c (by simp [hc]))

/-- Unfolding the search one level at a valid room: the door list and warn
list are the concatenated per-child contributions, the termination flag
their disjunction. -/
theorem searchR_succ (env : Env) (rem roomId : Nat) (room : Room)
    (h : env.getRoom roomId = some room) :
    searchR env (rem + 1) roomId =
      (room.children.flatMap (fun c => (childStep env (searchR env rem) roomId room c).1),
       room.children.flatMap (fun c => (childStep env (searchR env rem) roomId room c).2.1),
       room.children.any (fun c => (childStep env (searchR env rem) roomId room c).2.2)) := by
  simp only [searchR, h]
  rw [foldl_acc_triple (fun c => childStep env (searchR env rem) roomId room c)
      room.children [] [] false]
  simp

/-- The selection loop started on `b` with `b`'s own distance returns the
first strict minimum of `b :: l`: everything strictly before the returned
candidate is strictly farther, everything after is at least as far. -/
theorem pickClosest_spec (pp : Int × Int × Int) (l : List Candidate) :
    ∀ b : Candidate,
      ∃ l₁ r l₂, pickClosest pp l (some (b, distSq pp b)) = some (r, distSq pp r) ∧
        b :: l = l₁ ++ r :: l₂ ∧
        (∀ c ∈ l₁, distSq pp r < distSq pp c) ∧
        (∀ c ∈ l₂, distSq pp r ≤ distSq pp c) := by
  induction l with
  | nil =>
    intro b
    exact ⟨[], b, [], rfl, rfl, by simp, by simp⟩
  | cons c rest ih =>
    intro b
    by_cases hd : distSq pp c < distSq pp b
    · obtain ⟨l₁, r, l₂, hpick, hdecomp, hpre, hsuf⟩ := ih c
      have hrc : distSq pp r ≤ distSq pp c := by
        cases l₁ with
        | nil =>
          obtain ⟨rfl, -⟩ := List.cons.inj hdecomp
          exact le_refl _
        | cons a t =>
          obtain ⟨rfl, -⟩ := List.cons.inj hdecomp
          exact le_of_lt (hpre c (by simp))
      refine ⟨b :: l₁, r, l₂, ?_, ?_, ?_, hsuf⟩
      · simpa [pickClosest, hd] using hpick
      · simpa using hdecomp
      · intro x hx
        rcases List.mem_cons.mp hx with rfl | hx
        · exact lt_of_le_of_lt hrc hd
        · exact hpre x hx
    · obtain ⟨l₁, r, l₂, hpick, hdecomp, hpre, hsuf⟩ := ih b
      cases l₁ with
      | nil =>
        obtain ⟨rfl, rfl⟩ := List.cons.inj hdecomp
        refine ⟨[], b, c :: rest, ?_, by simp, by simp, ?_⟩
        · simpa [pickClosest, hd] using hpick
        · intro x hx
          rcases List.mem_cons.mp hx with rfl | hx
          · exact le_of_not_lt hd
          · exact hsuf x hx
      | cons a t =>
        obtain ⟨rfl, hrest⟩ := List.cons.inj hdecomp
        refine ⟨b :: c :: t, r, l₂, ?_, ?_, ?_, hsuf⟩
        · simpa [pickClosest, hd] using hpick
        · simp [hrest]
        · intro y hy
          rcases List.mem_cons.mp hy with hyb | hy'
          · rw [hyb]
            exact hpre b (by simp)
          · rcases List.mem_cons.mp hy' with hyc | hyt
            · rw [hyc]
              exact lt_of_lt_of_le (hpre b (by simp)) (le_of_not_lt hd)
            · exact hpre y (by simp [hyt])

/-!
## Claim C1
-/

/-- C1, counterexample.  For a door centered at `(0, 0)` whose north side is
the only open one, the prober's candidate is `(2, 69, -3)`: the along-axis
coordinate is three cells out as claimed, but the cross-axis coordinate is
`2`, not the door center's `0` — the claim's "cross-axis coordinate equal to
the door center's" is false. -/
theorem C1_counterexample :
    ∃ c : Candidate,
      (calculateFootCoordsWithBlockCheck envNorthOnly (((0 : Int) : Rat), ((0 : Int) : Rat))
          69 none).1 = some c ∧
      c.side = "north" ∧ c.footY = 69 ∧ c.footZ = -3 ∧ c.footX ≠ 0 := by
  have h : (calculateFootCoordsWithBlockCheck envNorthOnly
      (((0 : Int) : Rat), ((0 : Int) : Rat)) 69 none).1 = some ⟨2, 69, -3, "north"⟩ := by
    rw [show envNorthOnly = mkEnv worldNorthOnly 0 70 0 (fun _ => none) (fun _ _ => none)
          from rfl,
        calculateFootCoords_intCast, observerPos_mkEnv]
    decide
  exact ⟨⟨2, 69, -3, "north"⟩, h, rfl, rfl, rfl, by decide⟩

/-- C1, amended.  For every direction found open by the clearance check, the
candidate standing cell is offset three cells from the (floored) door center
along that direction's axis — one cell past the two-cell air-check point —
with `footY` the floor elevation; but its cross-axis coordinate is offset
two cells from the door center (`x + 2` for north, `x - 2` for south,
`z - 2` for east and for west), not equal to it. -/
theorem C1_candidate_offsets (w : World) (dbx dbz fy : Int) :
    ((footCandidates w dbx dbz fy).filter (fun c => c.side == "north") =
      if (doorChecks w dbx dbz fy).1 then [⟨dbx + 2, fy, dbz - 3, "north"⟩] else []) ∧
    ((footCandidates w dbx dbz fy).filter (fun c => c.side == "south") =
      if (doorChecks w dbx dbz fy).2.1 then [⟨dbx - 2, fy, dbz + 3, "south"⟩] else []) ∧
    ((footCandidates w dbx dbz fy).filter (fun c => c.side == "east") =
      if (doorChecks w dbx dbz fy).2.2.1 then [⟨dbx + 3, fy, dbz - 2, "east"⟩] else []) ∧
    ((footCandidates w dbx dbz fy).filter (fun c => c.side == "west") =
      if (doorChecks w dbx dbz fy).2.2.2 then [⟨dbx - 3, fy, dbz - 2, "west"⟩] else []) := by
  cases hN : (doorChecks w dbx dbz fy).1 <;>
    cases hS : (doorChecks w dbx dbz fy).2.1 <;>
      cases hE : (doorChecks w dbx dbz fy).2.2.1 <;>
        cases hW : (doorChecks w dbx dbz fy).2.2.2 <;>
          simp [footCandidates, hN, hS, hE, hW, List.filter]

/-!
## Claim C2
-/

/-- C2.  The prober floors the door center and observer position to the
grid; the observer defaults to the player's (floored) position when not
supplied; with exactly one candidate it returns that candidate regardless of
the observer position; with several it returns the first candidate (in the
construction order north, south, east, west of `footCandidates`) attaining
the minimum squared planar distance to the observer — every candidate
strictly before the returned one is strictly farther. -/
theorem C2_closest_candidate (env : Env) (doorCoords : Rat × Rat) (floorY : Int)
    (ppOpt : Option (Rat × Rat × Rat)) (w : World) (dbx dbz fy : Int)
    (pp : Int × Int × Int) :
    (calculateFootCoordsWithBlockCheck env doorCoords floorY ppOpt =
      calculateFootCoordsCore env.world (Rat.floor doorCoords.1) (Rat.floor doorCoords.2)
        floorY (observerPos env ppOpt)) ∧
    (observerPos env none =
      (Rat.floor env.playerX, Rat.floor env.playerY, Rat.floor env.playerZ)) ∧
    (∀ c, footCandidates w dbx dbz fy = [c] →
      (calculateFootCoordsCore w dbx dbz fy pp).1 = some c) ∧
    (2 ≤ (footCandidates w dbx dbz fy).length →
      ∃ l₁ r l₂, footCandidates w dbx dbz fy = l₁ ++ r :: l₂ ∧
        (calculateFootCoordsCore w dbx dbz fy pp).1 = some r ∧
        (∀ c ∈ footCandidates w dbx dbz fy, distSq pp r ≤ distSq pp c) ∧
        (∀ c ∈ l₁, distSq pp r < distSq pp c)) := by
  refine ⟨rfl, rfl, ?_, ?_⟩
  · intro c h
    simp [calculateFootCoordsCore, h]
  · intro hlen
    cases hc : footCandidates w dbx dbz fy with
    | nil =>
      rw [hc] at hlen
      simp at hlen
    | cons c tail =>
      cases tail with
      | nil =>
        rw [hc] at hlen
        simp at hlen
      | cons c' rest =>
        obtain ⟨l₁, r, l₂, hpick, hdecomp, hpre, hsuf⟩ := pickClosest_spec pp (c' :: rest) c
        refine ⟨l₁, r, l₂, hdecomp, ?_, ?_, hpre⟩
        · have hstep : pickClosest pp (c :: c' :: rest) none =
              pickClosest pp (c' :: rest) (some (c, distSq pp c)) := rfl
          simp only [calculateFootCoordsCore, hc]
          rw [hstep, hpick]
          rfl
        · rw [hdecomp]
          intro x hx
          rcases List.mem_append.mp hx with hx1 | hx2
          · exact le_of_lt (hpre x hx1)
          · rcases List.mem_cons.mp hx2 with hxr | hxl
            · rw [hxr]
            · exact hsuf x hxl

/-- C2, witness: with only the north side open the prober returns the north
candidate for an arbitrary observer position; with all four sides open and
the player at the origin all four candidates are equidistant (squared
distance 13) and the first-constructed (north) candidate is returned. -/
theorem C2_closest_candidate_witness :
    (footCandidates worldNorthOnly 0 0 69 = [⟨2, 69, -3, "north"⟩] ∧
      (calculateFootCoordsCore worldNorthOnly 0 0 69 (5, 70, 5)).1 =
        some ⟨2, 69, -3, "north"⟩) ∧
    (2 ≤ (footCandidates worldAllAir 0 0 69).length ∧
      ∃ l₁ r l₂, footCandidates worldAllAir 0 0 69 = l₁ ++ r :: l₂ ∧
        (calculateFootCoordsCore worldAllAir 0 0 69 (0, 70, 0)).1 = some r ∧
        (∀ c ∈ footCandidates worldAllAir 0 0 69,
          distSq (0, 70, 0) r ≤ distSq (0, 70, 0) c) ∧
        (∀ c ∈ l₁, distSq (0, 70, 0) r < distSq (0, 70, 0) c)) := by
  constructor
  · exact ⟨by decide,
      (C2_closest_candidate envNorthOnly ((0 : Int), (0 : Int)) 69 none worldNorthOnly
          0 0 69 (5, 70, 5)).2.2.1 ⟨2, 69, -3, "north"⟩ (by decide)⟩
  · exact ⟨by decide,
      (C2_closest_candidate envNorthOnly ((0 : Int), (0 : Int)) 69 none worldAllAir
          0 0 69 (0, 70, 0)).2.2.2 (by decide)⟩

/-!
## Claim C9
-/

/-- C9.  Each direction's clearance check is the conjunction of the two air
probes at floor and head height, two cells out from the door center along
that direction; an `isBlockAir` probe is `true` exactly when the lookup
succeeded with the air id; a failing lookup yields `false` ("assume solid")
and logs the non-fatal block-check warning; hence a direction whose floor
lookup fails is classified closed with the warning logged.  (All modelled
functions are total: the `try`/`catch` of `isBlockAir` is the only place a
probe can throw, and it converts the failure into the `false` fallback, so
no exception escapes the prober.) -/
theorem C9_probe_failure_is_solid (w : World) (dbx dbz fy : Int) :
    ((doorChecks w dbx dbz fy).1 =
      (isBlockAir w dbx fy (dbz - 2) && isBlockAir w dbx (fy + 1) (dbz - 2))) ∧
    ((doorChecks w dbx dbz fy).2.1 =
      (isBlockAir w dbx fy (dbz + 2) && isBlockAir w dbx (fy + 1) (dbz + 2))) ∧
    ((doorChecks w dbx dbz fy).2.2.1 =
      (isBlockAir w (dbx + 2) fy dbz && isBlockAir w (dbx + 2) (fy + 1) dbz)) ∧
    ((doorChecks w dbx dbz fy).2.2.2 =
      (isBlockAir w (dbx - 2) fy dbz && isBlockAir w (dbx - 2) (fy + 1) dbz)) ∧
    (∀ x y z, isBlockAir w x y z = true ↔ w.blockId x y z = some AirBlockID) ∧
    (∀ x y z, w.blockId x y z = none →
      isBlockAir w x y z = false ∧ isBlockAirLog w x y z = [.blockCheckError x y z]) ∧
    (∀ x fy' z, w.blockId x fy' z = none →
      (probePair w x fy' z).1 = false ∧
        LogMsg.blockCheckError x fy' z ∈ (probePair w x fy' z).2) := by
  have hpair : ∀ x fy' z, (probePair w x fy' z).1 =
      (isBlockAir w x fy' z && isBlockAir w x (fy' + 1) z) := by
    intro x fy' z
    by_cases h : isBlockAir w x fy' z <;> simp [probePair, h]
  refine ⟨hpair .., hpair .., hpair .., hpair .., ?_, ?_, ?_⟩
  · intro x y z
    cases h : w.blockId x y z with
    | none => simp [isBlockAir, h]
    | some t => simp [isBlockAir, h, AirBlockID]
  · intro x y z h
    exact ⟨by simp [isBlockAir, h], by simp [isBlockAirLog, h]⟩
  · intro x fy' z h
    have hair : isBlockAir w x fy' z = false := by simp [isBlockAir, h]
    constructor
    · simp [probePair, hair]
    · simp [probePair, hair, isBlockAirLog, h]

/-- C9, witness: in `worldFailNorth` the lookup at `(0, 69, -2)` throws; the
probe there is classified solid, the block-check warning is logged, and the
north clearance check of a door at the origin comes out closed. -/
theorem C9_probe_failure_is_solid_witness :
    worldFailNorth.blockId 0 69 (-2) = none ∧
    isBlockAir worldFailNorth 0 69 (-2) = false ∧
    (probePair worldFailNorth 0 69 (-2)).1 = false ∧
    LogMsg.blockCheckError 0 69 (-2) ∈ (probePair worldFailNorth 0 69 (-2)).2 ∧
    (doorChecks worldFailNorth 0 0 69).1 = false := by
  refine ⟨by decide, ?_, ?_, ?_, ?_⟩
  · exact ((C9_probe_failure_is_solid worldFailNorth 0 0 69).2.2.2.2.2.1 0 69 (-2)
      (by decide)).1
  · exact ((C9_probe_failure_is_solid worldFailNorth 0 0 69).2.2.2.2.2.2 0 69 (-2)
      (by decide)).1
  · exact ((C9_probe_failure_is_solid worldFailNorth 0 0 69).2.2.2.2.2.2 0 69 (-2)
      (by decide)).2
  · rw [(C9_probe_failure_is_solid worldFailNorth 0 0 69).1]
    have hAir : isBlockAir worldFailNorth 0 69 (-2) = false :=
      ((C9_probe_failure_is_solid worldFailNorth 0 0 69).2.2.2.2.2.1 0 69 (-2)
        (by decide)).1
    rw [show ((0 : Int) - 2) = -2 from by norm_num, hAir]
    simp

/-!
## Claim C3
-/

/-- C3.  With zero open directions the prober returns `none` ("no
candidate") — stated both for the integer core and the `Rat`-level entry
point — and the traversal then augments the qualifying door with the
fallback standing coordinates `(door.x, FLOOR_Y, door.z)` (the door's own
center at floor elevation `FLOOR_Y = 69`) and logs the warning naming the
two rooms the door connects. -/
theorem C3_no_candidate_fallback :
    FLOOR_Y = 69 ∧
    (∀ (w : World) (dbx dbz fy : Int) (pp : Int × Int × Int),
      footCandidates w dbx dbz fy = [] →
      (calculateFootCoordsCore w dbx dbz fy pp).1 = none) ∧
    (∀ (env : Env) (dc : Rat × Rat) (fy : Int) (ppOpt : Option (Rat × Rat × Rat)),
      footCandidates env.world (Rat.floor dc.1) (Rat.floor dc.2) fy = [] →
      (calculateFootCoordsWithBlockCheck env dc fy ppOpt).1 = none) ∧
    (∀ (env : Env) (roomId doorsFound : Nat) (room child : Room) (childId : Nat)
        (door : Door),
      doorsFound < 2 →
      env.getRoom roomId = some room →
      childId ∈ room.children →
      env.getRoom childId = some child →
      child.name ≠ "" →
      env.getDoorBetweenRooms roomId childId = some door →
      doorQualifies door = true →
      (calculateFootCoordsWithBlockCheck env ((door.x : Rat), (door.z : Rat))
          FLOOR_Y none).1 = none →
      (⟨door, some door.x, some FLOOR_Y, some door.z⟩ : AugDoor) ∈
          (searchForWitherDoors env roomId doorsFound).1 ∧
        LogMsg.footCoordsFallback room.name child.name door.x door.z ∈
          (searchForWitherDoors env roomId doorsFound).2.1) := by
  refine ⟨rfl, ?_, ?_, ?_⟩
  · intro w dbx dbz fy pp h
    simp [calculateFootCoordsCore, h]
  · intro env dc fy ppOpt h
    simp [calculateFootCoordsWithBlockCheck, calculateFootCoordsCore, h]
  · intro env roomId doorsFound room child childId door hlt hroom hmem hchild hname hdoor
      hqual hprobe
    have hq : qualifyingDoor env roomId childId = some (child, door) := by
      simp [qualifyingDoor, hchild, hname, hdoor, hqual]
    have hstep : childStep env (searchR env (1 - doorsFound)) roomId room childId =
        ((⟨door, some door.x, some FLOOR_Y, some door.z⟩ : AugDoor) ::
            (searchR env (1 - doorsFound) childId).1,
         (calculateFootCoordsWithBlockCheck env ((door.x : Rat), (door.z : Rat))
             FLOOR_Y none).2 ++
           LogMsg.footCoordsFallback room.name child.name door.x door.z ::
             (searchR env (1 - doorsFound) childId).2.1,
         (searchR env (1 - doorsFound) childId).2.2) := by
      simp [childStep, hq, augmentDoor, hprobe]
    have hrem : 2 - doorsFound = (1 - doorsFound) + 1 := by omega
    rw [show searchForWitherDoors env roomId doorsFound =
        searchR env (2 - doorsFound) roomId from rfl, hrem,
      searchR_succ env (1 - doorsFound) roomId room hroom]
    constructor
    · exact List.mem_flatMap.mpr ⟨childId, hmem, by rw [hstep]; exact List.mem_cons_self ..⟩
    · exact List.mem_flatMap.mpr ⟨childId, hmem, by rw [hstep]; simp⟩

/-- C3, witness: in `envLineStone` (solid stone everywhere) the prober finds
no candidate for the WITHER door at `(10, 20)` between rooms "Start" and
"Next", so the traversal emits the fallback-augmented door and the warning
naming both rooms. -/
theorem C3_no_candidate_fallback_witness :
    (⟨⟨10, 20, .WITHER, false⟩, some 10, some 69, some 20⟩ : AugDoor) ∈
        (searchForWitherDoors envLineStone 0 0).1 ∧
      LogMsg.footCoordsFallback "Start" "Next" 10 20 ∈
        (searchForWitherDoors envLineStone 0 0).2.1 :=
  C3_no_candidate_fallback.2.2.2 envLineStone 0 0 ⟨"Start", [1]⟩ ⟨"Next", []⟩ 1
    ⟨10, 20, .WITHER, false⟩ (by decide) (by decide) (by decide) (by decide)
    (by decide) (by decide) (by decide) (by decide)

/-- `maxPathR` is bounded by its budget: no root-to-leaf path of the search
entered with budget `rem` appends more than `rem` doors. -/
theorem maxPathR_le (env : Env) : ∀ rem roomId : Nat, maxPathR env rem roomId ≤ rem := by
  intro rem
  induction rem with
  | zero =>
    intro roomId
    simp [maxPathR]
  | succ rem ih =>
    intro roomId
    simp only [maxPathR]
    cases h : env.getRoom roomId with
    | none => simp
    | some room =>
      refine foldl_max_le _ room.children (rem + 1) 0 (by omega) ?_
      intro c hc
      simp only [pathStep]
      cases hq : qualifyingDoor env roomId c with
      | none => exact Nat.zero_le _
      | some pr =>
        show 1 + maxPathR env rem c ≤ rem + 1
        have := ih c
        omega

/-- Unfolding the fetched-door enumeration one level at a valid room. -/
theorem fetchedR_succ (env : Env) (rem roomId : Nat) (room : Room)
    (h : env.getRoom roomId = some room) :
    fetchedR env (rem + 1) roomId =
      room.children.flatMap (fun c => fetchStep env (fetchedR env rem) roomId c) := by
  simp only [fetchedR, h]
  rw [foldl_acc_append (fun c => fetchStep env (fetchedR env rem) roomId c) room.children []]
  simp

/-!
## Claim C4
-/

/-- C4.  A call entered with a found-count of 2 or more appends nothing (and
returns `true`); along any single root-to-leaf path of the recursion at most
`2 - doorsFound` doors are appended (`maxPathDoors` mirrors the search's
recursion, counting the doors appended along the deepest path); the bound is
per-path, not global: in `envSiblings` a single traversal appends 3 doors
(one per sibling branch, each entered with the count passed to their common
parent, while no path appends more than 1); and in `envDiamond` the shared
BLOOD door reachable via two paths is collected twice. -/
theorem C4_found_count_bound :
    (∀ (env : Env) (roomId doorsFound : Nat), 2 ≤ doorsFound →
      searchForWitherDoors env roomId doorsFound = ([], [], true)) ∧
    (∀ (env : Env) (roomId doorsFound : Nat),
      maxPathDoors env roomId doorsFound ≤ 2 - doorsFound) ∧
    (searchForWitherDoors envSiblings 0 0).1.length = 3 ∧
    maxPathDoors envSiblings 0 0 = 1 ∧
    ((searchForWitherDoors envDiamond 0 0).1.map (fun a => a.toDoor)).count
        ⟨24, 0, .BLOOD, false⟩ = 2 := by
  refine ⟨?_, ?_, by decide, by decide, by decide⟩
  · intro env roomId doorsFound h
    have h0 : 2 - doorsFound = 0 := by omega
    simp [searchForWitherDoors, h0, searchR]
  · intro env roomId doorsFound
    exact maxPathR_le env (2 - doorsFound) roomId

/-- C4, witness: a call entered with found-count 2 appends nothing and
reports termination. -/
theorem C4_found_count_bound_witness :
    searchForWitherDoors envDiamond 0 2 = ([], [], true) :=
  C4_found_count_bound.1 envDiamond 0 2 (by decide)

/-!
## Claim C5
-/

/-- The search's door list is the fetched-door enumeration filtered to
qualifying doors, each augmented. -/
theorem searchR_eq_filterMap (env : Env) : ∀ rem roomId : Nat,
    (searchR env rem roomId).1 =
      (fetchedR env rem roomId).filterMap
        (fun d => if doorQualifies d then some (augmentDoor env d) else none) := by
  intro rem
  induction rem with
  | zero =>
    intro roomId
    simp [searchR, fetchedR]
  | succ rem ih =>
    intro roomId
    cases h : env.getRoom roomId with
    | none => simp [searchR, fetchedR, h]
    | some room =>
      rw [searchR_succ env rem roomId room h, fetchedR_succ env rem roomId room h]
      rw [List.filterMap_flatMap]
      apply List.flatMap_congr
      intro c hc
      simp only [childStep, fetchStep]
      cases hcr : env.getRoom c with
      | none => simp [qualifyingDoor, hcr]
      | some child =>
        by_cases hname : child.name = ""
        · simp [qualifyingDoor, hcr, hname]
        · cases hd : env.getDoorBetweenRooms roomId c with
          | none => simp [qualifyingDoor, hcr, hname, hd]
          | some door =>
            by_cases hqual : doorQualifies door = true
            · simp [qualifyingDoor, hcr, hname, hd, hqual, ih c]
            · simp [qualifyingDoor, hcr, hname, hd, hqual,
                Bool.not_eq_true _ ▸ hqual]

/-- C5.  The traversal's output is exactly the walk's fetched doors filtered
by the type/opened test — WITHER or BLOOD and not opened — in the walk's
depth-first, children-array encounter order (the `filterMap` preserves that
order; nothing is re-sorted), each augmented with standing coordinates;
consequently every collected door is an unopened WITHER or BLOOD door. -/
theorem C5_collects_exactly_qualifying (env : Env) (roomId doorsFound : Nat) :
    ((searchForWitherDoors env roomId doorsFound).1 =
      (fetchedDoors env roomId doorsFound).filterMap
        (fun d => if doorQualifies d then some (augmentDoor env d) else none)) ∧
    (∀ a ∈ (searchForWitherDoors env roomId doorsFound).1,
      (a.type = DoorType.WITHER ∨ a.type = DoorType.BLOOD) ∧ a.opened = false) := by
  refine ⟨searchR_eq_filterMap env (2 - doorsFound) roomId, ?_⟩
  intro a ha
  rw [show (searchForWitherDoors env roomId doorsFound).1 =
      (searchR env (2 - doorsFound) roomId).1 from rfl,
    searchR_eq_filterMap env (2 - doorsFound) roomId] at ha
  obtain ⟨d, hd, hda⟩ := List.mem_filterMap.mp ha
  have htoDoor : ∀ d' : Door, (augmentDoor env d').toDoor = d' := by
    intro d'
    simp only [augmentDoor]
    cases (calculateFootCoordsWithBlockCheck env ((d'.x : Rat), (d'.z : Rat))
        FLOOR_Y none).1 <;> rfl
  by_cases hq : doorQualifies d = true
  · rw [if_pos hq] at hda
    have haug : augmentDoor env d = a := Option.some.inj hda
    have htype : a.toDoor = d := by rw [← haug, htoDoor d]
    have hq2 : TypesToESP.contains d.type = true ∧ d.opened = false := by
      simpa only [doorQualifies, Bool.and_eq_true, Bool.not_eq_true'] using hq
    obtain ⟨hcon, hop⟩ := hq2
    have hat : a.type = d.type := congrArg Door.type htype
    have hao : a.opened = d.opened := congrArg Door.opened htype
    refine ⟨?_, ?_⟩
    · rw [hat]
      cases htd : d.type with
      | NORMAL => rw [htd] at hcon; exact absurd hcon (by decide)
      | WITHER => exact Or.inl rfl
      | BLOOD => exact Or.inr rfl
      | ENTRANCE => rw [htd] at hcon; exact absurd hcon (by decide)
    · rw [hao]
      simpa using hop
  · rw [if_neg hq] at hda
    exact absurd hda (by simp)

/-- C5, witness: in the diamond graph the WITHER door at `(8, 0)` is
collected (augmented with its west standing cell) and satisfies the
type/opened soundness property. -/
theorem C5_collects_exactly_qualifying_witness :
    ((⟨⟨8, 0, .WITHER, false⟩, some 5, some 69, some (-2)⟩ : AugDoor).type =
        DoorType.WITHER ∨
      (⟨⟨8, 0, .WITHER, false⟩, some 5, some 69, some (-2)⟩ : AugDoor).type =
        DoorType.BLOOD) ∧
    (⟨⟨8, 0, .WITHER, false⟩, some 5, some 69, some (-2)⟩ : AugDoor).opened = false :=
  (C5_collects_exactly_qualifying envDiamond 0 0).2
    ⟨⟨8, 0, .WITHER, false⟩, some 5, some 69, some (-2)⟩ (by decide)

/-- The embedding satisfies the source's recursion equation literally, with
`doorsFound` compared against 2 at entry and incremented for each recursive
call. -/
theorem searchForWitherDoors_eq (env : Env) (roomId doorsFound : Nat) :
    searchForWitherDoors env roomId doorsFound =
      if 2 ≤ doorsFound then ([], [], true)
      else
        match env.getRoom roomId with
        | none => ([], [], false)
        | some room =>
          room.children.foldl
            (fun acc childId =>
              (acc.1 ++ (childStep env (fun c => searchForWitherDoors env c (doorsFound + 1))
                  roomId room childId).1,
               acc.2.1 ++ (childStep env (fun c => searchForWitherDoors env c (doorsFound + 1))
                  roomId room childId).2.1,
               acc.2.2 || (childStep env (fun c => searchForWitherDoors env c (doorsFound + 1))
                  roomId room childId).2.2))
            ([], [], false)
    := by
  by_cases h : 2 ≤ doorsFound
  · have h0 : 2 - doorsFound = 0 := by omega
    simp [searchForWitherDoors, h0, searchR, h]
  · have h2 : 2 - doorsFound = (2 - (doorsFound + 1)) + 1 := by omega
    simp only [searchForWitherDoors, h2, searchR, h, if_false]

/-!
## Publisher lemmas
-/

/-- An active tick with a current room runs the search and the two emission
steps on the computed payload. -/
theorem tick_active (ctx : TickCtx) (s : TickState) (roomId : Nat)
    (hactive : (ctx.witherDoorEsp && ctx.inDungeon && !ctx.bossEntry) = true)
    (hroom : ctx.currentRoom = some roomId) :
    tick ctx s =
      ({ doorsToRender := (searchForWitherDoors ctx.env roomId 0).1,
         lastSentDoorsJson :=
           (doorLocationsStep s.lastSentDoorsJson (computeDoorsData ctx.env roomId)).2,
         isAutoGotoEnabled := s.isAutoGotoEnabled,
         lastSentGotoCoords :=
           (gotoStep s.isAutoGotoEnabled s.lastSentGotoCoords
             (computeDoorsData ctx.env roomId).head?).2 },
       (doorLocationsStep s.lastSentDoorsJson (computeDoorsData ctx.env roomId)).1 ++
         (gotoStep s.isAutoGotoEnabled s.lastSentGotoCoords
           (computeDoorsData ctx.env roomId).head?).1) := by
  simp [tick, hactive, hroom]

/-- An inactive tick (feature off, out of dungeon, or boss entered) clears
the door list, snapshot and navigate state and emits nothing. -/
theorem tick_inactive (ctx : TickCtx) (s : TickState)
    (h : (ctx.witherDoorEsp && ctx.inDungeon && !ctx.bossEntry) = false) :
    tick ctx s =
      ({ doorsToRender := [], lastSentDoorsJson := none,
         isAutoGotoEnabled := s.isAutoGotoEnabled, lastSentGotoCoords := none }, []) := by
  simp [tick, h]

/-- A tick with no resolvable current room clears the door list, snapshot
and navigate state and emits nothing. -/
theorem tick_no_room (ctx : TickCtx) (s : TickState)
    (h : ctx.currentRoom = none) :
    tick ctx s =
      ({ doorsToRender := [], lastSentDoorsJson := none,
         isAutoGotoEnabled := s.isAutoGotoEnabled, lastSentGotoCoords := none }, []) := by
  by_cases hact : (ctx.witherDoorEsp && ctx.inDungeon && !ctx.bossEntry) = true
  · simp [tick, hact, h]
  · simp [tick, Bool.not_eq_true _ ▸ hact, h]

/-- A nonempty payload differing from the snapshot is emitted and recorded. -/
theorem doorLocationsStep_send (last : Option (List DoorData)) (d : List DoorData)
    (hne : d ≠ []) (hdiff : last ≠ some d) :
    doorLocationsStep last d = ([Msg.doorLocations d], some d) := by
  have hlen : 0 < d.length := List.length_pos.mpr hne
  have : ¬(some d = last) := fun h => hdiff h.symm
  simp [doorLocationsStep, hlen, this]

/-- Re-running the door-locations step on its own recorded snapshot emits
nothing. -/
theorem doorLocationsStep_idem (last : Option (List DoorData)) (d : List DoorData) :
    (doorLocationsStep (doorLocationsStep last d).2 d).1 = [] := by
  by_cases h1 : 0 < d.length
  · by_cases h2 : some d = last
    · simp [doorLocationsStep, h1, h2]
    · simp [doorLocationsStep, h1, h2]
  · cases hl : last with
    | none => simp [doorLocationsStep, h1, hl]
    | some prev =>
      by_cases hp : prev = []
      · simp [doorLocationsStep, h1, hl, hp]
      · simp [doorLocationsStep, h1, hl, hp]

/-- Every message of the door-locations step is a `doorLocations` message,
carrying either the current payload or the empty list. -/
theorem doorLocationsStep_msgs (last : Option (List DoorData)) (d : List DoorData) :
    ∀ m ∈ (doorLocationsStep last d).1,
      m = Msg.doorLocations d ∨ m = Msg.doorLocations [] := by
  intro m hm
  by_cases h1 : 0 < d.length
  · by_cases h2 : some d = last
    · simp [doorLocationsStep, h1, h2] at hm
    · simp [doorLocationsStep, h1, h2] at hm
      exact Or.inl hm
  · cases hl : last with
    | none => simp [doorLocationsStep, h1, hl] at hm
    | some prev =>
      by_cases hp : prev = []
      · simp [doorLocationsStep, h1, hl, hp] at hm
      · simp [doorLocationsStep, h1, hl, hp] at hm
        exact Or.inr hm

/-- The empty-list message is emitted exactly when the payload is empty and
the snapshot holds a previous non-empty emission. -/
theorem doorLocationsStep_empty_iff (last : Option (List DoorData)) (d : List DoorData) :
    Msg.doorLocations [] ∈ (doorLocationsStep last d).1 ↔
      d = [] ∧ last ≠ none ∧ last ≠ some [] := by
  by_cases h1 : 0 < d.length
  · have hne : d ≠ [] := by
      intro h
      rw [h] at h1
      simp at h1
    by_cases h2 : some d = last
    · simp [doorLocationsStep, h1, h2, hne]
    · simp [doorLocationsStep, h1, h2, hne]
  · have hd : d = [] := by
      cases d with
      | nil => rfl
      | cons x xs => exact absurd (by simp) h1
    cases hl : last with
    | none => simp [doorLocationsStep, h1, hl]
    | some prev =>
      by_cases hp : prev = []
      · simp [doorLocationsStep, h1, hl, hp, hd]
      · simp [doorLocationsStep, h1, hl, hp, hd]

/-- Every message of the goto step is a `GOTO` for the current target. -/
theorem gotoStep_msgs (e : Bool) (last : Option (Option Int × Option Int × Option Int))
    (target : Option DoorData) :
    ∀ m ∈ (gotoStep e last target).1,
      ∃ t, target = some t ∧ m = Msg.goto t.footX t.footY t.footZ := by
  intro m hm
  cases e with
  | false => simp [gotoStep] at hm
  | true =>
    cases ht : target with
    | none => simp [gotoStep, ht] at hm
    | some t =>
      by_cases h : last = some (t.footX, t.footY, t.footZ)
      · simp [gotoStep, ht, h] at hm
      · simp [gotoStep, ht, h] at hm
        exact ⟨t, rfl, hm⟩

/-- Re-running the goto step on its own recorded state emits nothing. -/
theorem gotoStep_idem (e : Bool) (last : Option (Option Int × Option Int × Option Int))
    (target : Option DoorData) :
    (gotoStep e (gotoStep e last target).2 target).1 = [] := by
  cases e with
  | false => simp [gotoStep]
  | true =>
    cases ht : target with
    | none => simp [gotoStep, ht]
    | some t =>
      by_cases h : last = some (t.footX, t.footY, t.footZ)
      · simp [gotoStep, ht, h]
      · simp [gotoStep, ht, h]

/-- The door-locations step never emits `GOTO` messages. -/
theorem doorLocationsStep_filter_goto (last : Option (List DoorData)) (d : List DoorData) :
    (doorLocationsStep last d).1.filter Msg.isGoto = [] := by
  rw [List.filter_eq_nil_iff]
  intro m hm
  rcases doorLocationsStep_msgs last d m hm with rfl | rfl <;> simp [Msg.isGoto]

/-- The goto step never emits `doorLocations` messages. -/
theorem gotoStep_filter_doorLocations (e : Bool)
    (last : Option (Option Int × Option Int × Option Int)) (target : Option DoorData) :
    (gotoStep e last target).1.filter Msg.isDoorLocations = [] := by
  rw [List.filter_eq_nil_iff]
  intro m hm
  obtain ⟨t, -, rfl⟩ := gotoStep_msgs e last target m hm
  simp [Msg.isDoorLocations]

/-!
## Claim C6
-/

/-- C6.  When the tick is active with a current room, a nonempty payload,
and a snapshot differing from it, the tick emits the `doorLocations` message
(exactly one such message) and records the payload as the snapshot; running
the tick again from the resulting state under the same context emits nothing
at all. -/
theorem C6_publish_once (ctx : TickCtx) (s0 : TickState) (roomId : Nat)
    (hactive : (ctx.witherDoorEsp && ctx.inDungeon && !ctx.bossEntry) = true)
    (hroom : ctx.currentRoom = some roomId)
    (hne : computeDoorsData ctx.env roomId ≠ [])
    (hdiff : s0.lastSentDoorsJson ≠ some (computeDoorsData ctx.env roomId)) :
    ((tick ctx s0).2.filter Msg.isDoorLocations =
      [Msg.doorLocations (computeDoorsData ctx.env roomId)]) ∧
    (tick ctx s0).1.lastSentDoorsJson = some (computeDoorsData ctx.env roomId) ∧
    (tick ctx (tick ctx s0).1).2 = [] := by
  have h1 := tick_active ctx s0 roomId hactive hroom
  have hsend := doorLocationsStep_send s0.lastSentDoorsJson _ hne hdiff
  refine ⟨?_, ?_, ?_⟩
  · rw [h1]
    show ((doorLocationsStep s0.lastSentDoorsJson (computeDoorsData ctx.env roomId)).1 ++
        (gotoStep s0.isAutoGotoEnabled s0.lastSentGotoCoords
          (computeDoorsData ctx.env roomId).head?).1).filter Msg.isDoorLocations = _
    rw [List.filter_append, gotoStep_filter_doorLocations, hsend]
    simp [Msg.isDoorLocations]
  · rw [h1]
    show (doorLocationsStep s0.lastSentDoorsJson (computeDoorsData ctx.env roomId)).2 = _
    rw [hsend]
  · have h2 := tick_active ctx (tick ctx s0).1 roomId hactive hroom
    rw [h2, h1]
    simp [doorLocationsStep_idem, gotoStep_idem]

/-- C6, witness: from the initial state over the diamond graph, the first
tick emits the payload once and records it; the second tick emits nothing. -/
theorem C6_publish_once_witness :
    ((tick ctxDiamond initialState).2.filter Msg.isDoorLocations =
      [Msg.doorLocations (computeDoorsData envDiamond 0)]) ∧
    (tick ctxDiamond initialState).1.lastSentDoorsJson =
      some (computeDoorsData envDiamond 0) ∧
    (tick ctxDiamond (tick ctxDiamond initialState).1).2 = [] :=
  C6_publish_once ctxDiamond initialState 0 (by decide) (by decide) (by decide) (by decide)

/-!
## Claim C7
-/

/-- C7.  In an active tick with a current room, the empty-list
`doorLocations` message is emitted exactly when the filtered payload is
empty and the snapshot holds a previous non-empty emission; and whenever the
feature is inactive (disabled, not in a dungeon, boss entered) or no current
room resolves, the tick clears the tracked door list, the snapshot and the
navigate state and emits no message at all. -/
theorem C7_empty_message_policy :
    (∀ (ctx : TickCtx) (s : TickState) (roomId : Nat),
      (ctx.witherDoorEsp && ctx.inDungeon && !ctx.bossEntry) = true →
      ctx.currentRoom = some roomId →
      (Msg.doorLocations [] ∈ (tick ctx s).2 ↔
        computeDoorsData ctx.env roomId = [] ∧ s.lastSentDoorsJson ≠ none ∧
          s.lastSentDoorsJson ≠ some [])) ∧
    (∀ (ctx : TickCtx) (s : TickState),
      ((ctx.witherDoorEsp && ctx.inDungeon && !ctx.bossEntry) = false ∨
        ctx.currentRoom = none) →
      (tick ctx s).2 = [] ∧ (tick ctx s).1.doorsToRender = [] ∧
        (tick ctx s).1.lastSentDoorsJson = none ∧
        (tick ctx s).1.lastSentGotoCoords = none) := by
  constructor
  · intro ctx s roomId hactive hroom
    rw [tick_active ctx s roomId hactive hroom]
    show Msg.doorLocations [] ∈
        (doorLocationsStep s.lastSentDoorsJson (computeDoorsData ctx.env roomId)).1 ++
          (gotoStep s.isAutoGotoEnabled s.lastSentGotoCoords
            (computeDoorsData ctx.env roomId).head?).1 ↔ _
    constructor
    · intro hm
      rcases List.mem_append.mp hm with h | h
      · exact (doorLocationsStep_empty_iff _ _).mp h
      · obtain ⟨t, -, hEq⟩ := gotoStep_msgs _ _ _ _ h
        simp at hEq
    · intro h
      exact List.mem_append.mpr (Or.inl ((doorLocationsStep_empty_iff _ _).mpr h))
  · intro ctx s h
    rcases h with h | h
    · rw [tick_inactive ctx s h]
      exact ⟨rfl, rfl, rfl, rfl⟩
    · rw [tick_no_room ctx s h]
      exact ⟨rfl, rfl, rfl, rfl⟩

/-- C7, witness: over the childless lone room with a held non-empty
snapshot, the tick emits the empty-list message; with the feature toggle off
and the same held snapshot, the tick clears all tracked state and emits
nothing. -/
theorem C7_empty_message_policy_witness :
    Msg.doorLocations [] ∈ (tick ctxLone ⟨[], some [sampleDoorData], false, none⟩).2 ∧
    ((tick ctxDisabled ⟨[], some [sampleDoorData], false, none⟩).2 = [] ∧
      (tick ctxDisabled ⟨[], some [sampleDoorData], false, none⟩).1.doorsToRender = [] ∧
      (tick ctxDisabled ⟨[], some [sampleDoorData], false, none⟩).1.lastSentDoorsJson =
        none ∧
      (tick ctxDisabled ⟨[], some [sampleDoorData], false, none⟩).1.lastSentGotoCoords =
        none) := by
  constructor
  · exact (C7_empty_message_policy.1 ctxLone ⟨[], some [sampleDoorData], false, none⟩ 0
      (by decide) (by decide)).mpr ⟨by decide, by decide, by decide⟩
  · exact C7_empty_message_policy.2 ctxDisabled ⟨[], some [sampleDoorData], false, none⟩
      (Or.inl (by decide))

/-!
## Claim C8
-/

/-- C8.  In an active tick with auto-goto enabled and a first filtered door
`t`: the `GOTO` message carrying `t`'s standing coordinates is emitted
exactly when those coordinates differ from the last-sent navigate
coordinates, and afterwards the last-sent coordinates hold `t`'s (so a
second tick with the same target emits no `GOTO`); with an empty filtered
sequence the navigate state is cleared with no `GOTO` emitted; and the
`gotodoor` command toggles the feature and resets the last-sent navigate
state in both directions, so re-enabling re-emits against the current
target. -/
theorem C8_goto_emission :
    (∀ (ctx : TickCtx) (s : TickState) (roomId : Nat) (t : DoorData),
      (ctx.witherDoorEsp && ctx.inDungeon && !ctx.bossEntry) = true →
      ctx.currentRoom = some roomId →
      s.isAutoGotoEnabled = true →
      (computeDoorsData ctx.env roomId).head? = some t →
      ((Msg.goto t.footX t.footY t.footZ ∈ (tick ctx s).2 ↔
        s.lastSentGotoCoords ≠ some (t.footX, t.footY, t.footZ)) ∧
       (tick ctx s).1.lastSentGotoCoords = some (t.footX, t.footY, t.footZ))) ∧
    (∀ (ctx : TickCtx) (s : TickState) (roomId : Nat),
      (ctx.witherDoorEsp && ctx.inDungeon && !ctx.bossEntry) = true →
      ctx.currentRoom = some roomId →
      (tick ctx (tick ctx s).1).2.filter Msg.isGoto = []) ∧
    (∀ (ctx : TickCtx) (s : TickState) (roomId : Nat),
      (ctx.witherDoorEsp && ctx.inDungeon && !ctx.bossEntry) = true →
      ctx.currentRoom = some roomId →
      s.isAutoGotoEnabled = true →
      computeDoorsData ctx.env roomId = [] →
      (tick ctx s).2.filter Msg.isGoto = [] ∧
        (tick ctx s).1.lastSentGotoCoords = none) ∧
    (∀ s : TickState,
      (gotodoorCommand s).isAutoGotoEnabled = !s.isAutoGotoEnabled ∧
        (gotodoorCommand s).lastSentGotoCoords = none) := by
  refine ⟨?_, ?_, ?_, ?_⟩
  · intro ctx s roomId t hactive hroom henabled htarget
    rw [tick_active ctx s roomId hactive hroom]
    constructor
    · show Msg.goto t.footX t.footY t.footZ ∈
          (doorLocationsStep s.lastSentDoorsJson (computeDoorsData ctx.env roomId)).1 ++
            (gotoStep s.isAutoGotoEnabled s.lastSentGotoCoords
              (computeDoorsData ctx.env roomId).head?).1 ↔ _
      constructor
      · intro hm
        rcases List.mem_append.mp hm with h | h
        · rcases doorLocationsStep_msgs _ _ _ h with hEq | hEq <;> simp at hEq
        · rw [henabled, htarget] at h
          by_cases hlast : s.lastSentGotoCoords = some (t.footX, t.footY, t.footZ)
          · rw [show gotoStep true s.lastSentGotoCoords (some t) =
                ([], s.lastSentGotoCoords) from by simp [gotoStep, hlast]] at h
            simp at h
          · exact hlast
      · intro hlast
        refine List.mem_append.mpr (Or.inr ?_)
        rw [henabled, htarget]
        rw [show gotoStep true s.lastSentGotoCoords (some t) =
            ([Msg.goto t.footX t.footY t.footZ],
              some (t.footX, t.footY, t.footZ)) from by simp [gotoStep, hlast]]
        exact List.mem_singleton.mpr rfl
    · show (gotoStep s.isAutoGotoEnabled s.lastSentGotoCoords
          (computeDoorsData ctx.env roomId).head?).2 = _
      rw [henabled, htarget]
      by_cases hlast : s.lastSentGotoCoords = some (t.footX, t.footY, t.footZ)
      · simp [gotoStep, hlast]
      · simp [gotoStep, hlast]
  · intro ctx s roomId hactive hroom
    have h1 := tick_active ctx s roomId hactive hroom
    have h2 := tick_active ctx (tick ctx s).1 roomId hactive hroom
    rw [h2, h1]
    simp [List.filter_append, doorLocationsStep_filter_goto, gotoStep_idem]
  · intro ctx s roomId hactive hroom henabled hempty
    rw [tick_active ctx s roomId hactive hroom]
    constructor
    · show ((doorLocationsStep s.lastSentDoorsJson (computeDoorsData ctx.env roomId)).1 ++
          (gotoStep s.isAutoGotoEnabled s.lastSentGotoCoords
            (computeDoorsData ctx.env roomId).head?).1).filter Msg.isGoto = []
      rw [List.filter_append, doorLocationsStep_filter_goto, henabled, hempty]
      simp [gotoStep]
    · show (gotoStep s.isAutoGotoEnabled s.lastSentGotoCoords
          (computeDoorsData ctx.env roomId).head?).2 = none
      rw [henabled, hempty]
      simp [gotoStep]
  · intro s
    exact ⟨rfl, rfl⟩

/-- C8, witness: over the diamond graph with auto-goto enabled and no
last-sent coordinates, the first tick emits the `GOTO` for the first door's
standing cell `(5, 69, -2)` and records it; a second tick emits no `GOTO`;
over the empty lone room the navigate state is cleared with no `GOTO`; the
command toggles the flag and clears the last-sent state. -/
theorem C8_goto_emission_witness :
    Msg.goto (some 5) (some 69) (some (-2)) ∈
        (tick ctxDiamond ⟨[], none, true, none⟩).2 ∧
      (tick ctxDiamond ⟨[], none, true, none⟩).1.lastSentGotoCoords =
        some (some 5, some 69, some (-2)) ∧
      (tick ctxDiamond (tick ctxDiamond ⟨[], none, true, none⟩).1).2.filter Msg.isGoto =
        [] ∧
      ((tick ctxLone ⟨[], none, true, none⟩).2.filter Msg.isGoto = [] ∧
        (tick ctxLone ⟨[], none, true, none⟩).1.lastSentGotoCoords = none) ∧
      ((gotodoorCommand ⟨[], none, true, none⟩).isAutoGotoEnabled = false ∧
        (gotodoorCommand ⟨[], none, true, none⟩).lastSentGotoCoords = none) := by
  refine ⟨?_, ?_, ?_, ?_, ?_⟩
  · exact ((C8_goto_emission.1 ctxDiamond ⟨[], none, true, none⟩ 0 sampleDoorData
      (by decide) (by decide) (by decide) (by decide)).1).mpr (by decide)
  · exact (C8_goto_emission.1 ctxDiamond ⟨[], none, true, none⟩ 0 sampleDoorData
      (by decide) (by decide) (by decide) (by decide)).2
  · exact C8_goto_emission.2.1 ctxDiamond ⟨[], none, true, none⟩ 0 (by decide) (by decide)
  · exact C8_goto_emission.2.2.1 ctxLone ⟨[], none, true, none⟩ 0 (by decide) (by decide)
      (by decide) (by decide)
  · exact C8_goto_emission.2.2.2 ⟨[], none, true, none⟩

/-!
## Claim C10
-/

/-- Every candidate the clearance check generates carries the floor
elevation it was generated for. -/
theorem footCandidates_mem_footY (w : World) (dbx dbz fy : Int) :
    ∀ c ∈ footCandidates w dbx dbz fy, c.footY = fy := by
  have hsingle : ∀ (b : Bool) (x c : Candidate), c ∈ (if b then [x] else []) → c = x := by
    intro b x c h
    cases b
    · simp at h
    · simpa using h
  intro c hc
  simp only [footCandidates] at hc
  rcases List.mem_append.mp hc with hc1 | h
  · rcases List.mem_append.mp hc1 with hc2 | h
    · rcases List.mem_append.mp hc2 with h | h
      · rw [hsingle _ _ _ h]
      · rw [hsingle _ _ _ h]
    · rw [hsingle _ _ _ h]
  · rw [hsingle _ _ _ h]

/-- The prober's chosen candidate (when any) comes from the candidate list,
so its `footY` is the floor elevation. -/
theorem calculateFootCoordsCore_footY (w : World) (dbx dbz fy : Int)
    (pp : Int × Int × Int) (c : Candidate)
    (h : (calculateFootCoordsCore w dbx dbz fy pp).1 = some c) : c.footY = fy := by
  cases hfc : footCandidates w dbx dbz fy with
  | nil =>
    rw [show (calculateFootCoordsCore w dbx dbz fy pp).1 = none from by
      simp [calculateFootCoordsCore, hfc]] at h
    exact absurd h (by simp)
  | cons a tail =>
    cases tail with
    | nil =>
      rw [show (calculateFootCoordsCore w dbx dbz fy pp).1 = some a from by
        simp [calculateFootCoordsCore, hfc]] at h
      obtain rfl := Option.some.inj h
      exact footCandidates_mem_footY w dbx dbz fy a (by rw [hfc]; exact List.mem_cons_self ..)
    | cons a' rest =>
      obtain ⟨l₁, r, l₂, hpick, hdecomp, -, -⟩ := pickClosest_spec pp (a' :: rest) a
      have hstep : pickClosest pp (a :: a' :: rest) none =
          pickClosest pp (a' :: rest) (some (a, distSq pp a)) := rfl
      rw [show (calculateFootCoordsCore w dbx dbz fy pp).1 = some r from by
        simp only [calculateFootCoordsCore, hfc]
        rw [hstep, hpick]
        rfl] at h
      obtain rfl := Option.some.inj h
      refine footCandidates_mem_footY w dbx dbz fy r ?_
      rw [hfc, hdecomp]
      exact List.mem_append.mpr (Or.inr (List.mem_cons_self ..))

/-- Every door the search collects has all three standing coordinates
defined, with `footY` equal to the fixed floor elevation 69 — both when the
prober succeeded and on fallback. -/
theorem search_foot_fields (env : Env) (rem roomId : Nat) :
    ∀ a ∈ (searchR env rem roomId).1,
      a.footX.isSome = true ∧ a.footY = some 69 ∧ a.footZ.isSome = true := by
  intro a ha
  rw [searchR_eq_filterMap env rem roomId] at ha
  obtain ⟨d, hd, hda⟩ := List.mem_filterMap.mp ha
  by_cases hq : doorQualifies d = true
  · rw [if_pos hq] at hda
    obtain rfl := Option.some.inj hda
    simp only [augmentDoor]
    cases hpr : (calculateFootCoordsWithBlockCheck env ((d.x : Rat), (d.z : Rat))
        FLOOR_Y none).1 with
    | none => exact ⟨rfl, rfl, rfl⟩
    | some f =>
      refine ⟨rfl, ?_, rfl⟩
      have hfy : f.footY = FLOOR_Y :=
        calculateFootCoordsCore_footY env.world (Rat.floor ((d.x : Int) : Rat))
          (Rat.floor ((d.z : Int) : Rat)) FLOOR_Y (observerPos env none) f hpr
      show some f.footY = some 69
      rw [hfy]
      rfl
  · rw [if_neg hq] at hda
    exact absurd hda (by simp)

/-- The publisher's filter on defined `footX` and `footZ` discards nothing:
the filtered payload is exactly the collected doors, mapped. -/
theorem computeDoorsData_eq_map (env : Env) (roomId : Nat) :
    computeDoorsData env roomId = (searchForWitherDoors env roomId 0).1.map toDoorData := by
  rw [computeDoorsData, List.filter_eq_self]
  intro b hb
  obtain ⟨a, ha, rfl⟩ := List.mem_map.mp hb
  obtain ⟨hx, -, hz⟩ := search_foot_fields env (2 - 0) roomId a ha
  simp [toDoorData, hx, hz]

/-- Every entry of the filtered payload carries `footY = 69`. -/
theorem computeDoorsData_footY (env : Env) (roomId : Nat) :
    ∀ dd ∈ computeDoorsData env roomId, dd.footY = some 69 := by
  intro dd hdd
  rw [computeDoorsData_eq_map env roomId] at hdd
  obtain ⟨a, ha, rfl⟩ := List.mem_map.mp hdd
  obtain ⟨-, hy, -⟩ := search_foot_fields env (2 - 0) roomId a ha
  exact hy

/-- C10.  Every door the traversal appends has `footX`, `footY`, `footZ`
defined with `footY = 69`; the publisher's filter on defined `footX`/`footZ`
discards nothing, so the payload has exactly one entry per collected door;
and every emitted `doorLocations` entry and every emitted `GOTO` carries the
`y`-coordinate 69. -/
theorem C10_foot_fields_always_present :
    (∀ (env : Env) (roomId doorsFound : Nat),
      ∀ a ∈ (searchForWitherDoors env roomId doorsFound).1,
        a.footX.isSome = true ∧ a.footY = some 69 ∧ a.footZ.isSome = true) ∧
    (∀ (env : Env) (roomId : Nat),
      computeDoorsData env roomId =
        (searchForWitherDoors env roomId 0).1.map toDoorData) ∧
    (∀ (env : Env) (roomId : Nat),
      (computeDoorsData env roomId).length =
        (searchForWitherDoors env roomId 0).1.length) ∧
    (∀ (ctx : TickCtx) (s : TickState) (ds : List DoorData),
      Msg.doorLocations ds ∈ (tick ctx s).2 → ∀ dd ∈ ds, dd.footY = some 69) ∧
    (∀ (ctx : TickCtx) (s : TickState) (x y z : Option Int),
      Msg.goto x y z ∈ (tick ctx s).2 → y = some 69) := by
  have hmem_active : ∀ (ctx : TickCtx) (s : TickState) (m : Msg), m ∈ (tick ctx s).2 →
      ∃ roomId, (ctx.witherDoorEsp && ctx.inDungeon && !ctx.bossEntry) = true ∧
        ctx.currentRoom = some roomId ∧
        m ∈ (doorLocationsStep s.lastSentDoorsJson (computeDoorsData ctx.env roomId)).1 ++
          (gotoStep s.isAutoGotoEnabled s.lastSentGotoCoords
            (computeDoorsData ctx.env roomId).head?).1 := by
    intro ctx s m hm
    by_cases hact : (ctx.witherDoorEsp && ctx.inDungeon && !ctx.bossEntry) = true
    · cases hroom : ctx.currentRoom with
      | none =>
        rw [tick_no_room ctx s hroom] at hm
        exact absurd hm (by simp)
      | some roomId =>
        rw [tick_active ctx s roomId hact hroom] at hm
        exact ⟨roomId, hact, rfl, hm⟩
    · rw [tick_inactive ctx s (by simpa using hact)] at hm
      exact absurd hm (by simp)
  refine ⟨?_, computeDoorsData_eq_map, ?_, ?_, ?_⟩
  · intro env roomId doorsFound
    exact search_foot_fields env (2 - doorsFound) roomId
  · intro env roomId
    rw [computeDoorsData_eq_map env roomId, List.length_map]
  · intro ctx s ds hm dd hdd
    obtain ⟨roomId, -, -, hmem⟩ := hmem_active ctx s _ hm
    rcases List.mem_append.mp hmem with h | h
    · rcases doorLocationsStep_msgs _ _ _ h with hEq | hEq
      · obtain rfl : ds = computeDoorsData ctx.env roomId := by
          injection hEq
        exact computeDoorsData_footY ctx.env roomId dd hdd
      · obtain rfl : ds = [] := by injection hEq
        exact absurd hdd (by simp)
    · obtain ⟨t, -, hEq⟩ := gotoStep_msgs _ _ _ _ h
      simp at hEq
  · intro ctx s x y z hm
    obtain ⟨roomId, -, -, hmem⟩ := hmem_active ctx s _ hm
    rcases List.mem_append.mp hmem with h | h
    · rcases doorLocationsStep_msgs _ _ _ h with hEq | hEq <;> simp at hEq
    · obtain ⟨t, htarget, hEq⟩ := gotoStep_msgs _ _ _ _ h
      have hy : y = t.footY := by injection hEq
      have htmem : t ∈ computeDoorsData ctx.env roomId := by
        cases hl : computeDoorsData ctx.env roomId with
        | nil =>
          rw [hl] at htarget
          exact absurd htarget (by simp)
        | cons hd tl =>
          rw [hl] at htarget
          obtain rfl : hd = t := by simpa using htarget
          exact List.mem_cons_self ..
      rw [hy]
      exact computeDoorsData_footY ctx.env roomId t htmem

/-- C10, witness: the first collected door of the diamond graph has all
standing coordinates defined with `footY = 69`, and the `GOTO` the tick
emits for it carries `y = 69`. -/
theorem C10_foot_fields_always_present_witness :
    ((⟨⟨8, 0, .WITHER, false⟩, some 5, some 69, some (-2)⟩ : AugDoor).footX.isSome =
        true ∧
      (⟨⟨8, 0, .WITHER, false⟩, some 5, some 69, some (-2)⟩ : AugDoor).footY = some 69 ∧
      (⟨⟨8, 0, .WITHER, false⟩, some 5, some 69, some (-2)⟩ : AugDoor).footZ.isSome =
        true) ∧
    (some 69 : Option Int) = some 69 :=
  ⟨C10_foot_fields_always_present.1 envDiamond 0 0
      ⟨⟨8, 0, .WITHER, false⟩, some 5, some 69, some (-2)⟩ (by decide),
    C10_foot_fields_always_present.2.2.2.2 ctxDiamond ⟨[], none, true, none⟩
      (some 5) (some 69) (some (-2)) (by decide)⟩

end WitherDoorEsp
